import Mathlib

/-!
Shallow embedding of the HOTROD coverage pipeline (an Express + browser app
that aggregates FCC broadband provider coverage from two upstream sources).

Each definition translates one function of the JavaScript source:

* `probeTechs`, `probeTechsCached`     — `server/routes/tiles.js` (tech prober)
* `getCached` / `setCached`            — `server/services/fcc.js` (in-memory cache)
* `normalizeName`, `meaningfulTokens`,
  `scoreNameMatch`, `selectBest`,
  `resolveBdcProviderByName`           — `server/routes/tiles.js` (name resolver)
* `jsDedupeKey`, `mergeFeatures`,
  `fetchHexCoverage`                   — `src/map/hexCoverage.js` (geometry merger)
* `decodePbf`, `fetchAndDecode`        — `src/map/hexCoverage.js` (tile decoder)
* `handleProviderAdd`, `coverageRoute` — `src/main.js` / `server/routes/coverage.js`
* `resolveProviderTechnologies`        — `server/routes/tiles.js`

Network effects are made explicit: each upstream call becomes a function
argument (`Option`/`Except`-valued, `none`/`.error` modelling a thrown or
timed-out request), and module-level mutable caches become explicit
association lists threaded through the functions that touch them.
JavaScript numbers that hold coordinates are modelled as rationals, and
`Array.prototype.sort` with the numeric comparator is modelled as a stable
sort (insertion sort) by the same key.
-/

namespace Hotrod

/-- JavaScript `Number(s)` restricted to the decimal-digit strings that the
technology codes of this code base are (`"10"`, `"40"`, ...). -/
def jsNumber (s : String) : Nat :=
  s.data.foldl (fun acc c => acc * 10 + (c.toNat - 48)) 0

/-- The order used by `.sort((a, b) => Number(a) - Number(b))` on tech codes. -/
def numLE (a b : String) : Prop := jsNumber a ≤ jsNumber b

instance : DecidableRel numLE := fun a b => Nat.decLe (jsNumber a) (jsNumber b)

instance : IsTotal String numLE := ⟨fun a b => Nat.le_total (jsNumber a) (jsNumber b)⟩

instance : IsTrans String numLE := ⟨fun _ _ _ => Nat.le_trans⟩

/-! ## Tech prober (`server/routes/tiles.js`, `probeTechs`) -/

/-- One FCC tile response as the prober sees it: the HTTP `ok` flag and the
byte length of the body. -/
structure TileResp where
  ok : Bool
  byteLength : Nat
deriving DecidableEq

/-- `PROBE_TILES` — the 8 zoom-5 sample tiles covering all major US regions. -/
def PROBE_TILES : List (Nat × Nat × Nat) :=
  [(5, 4, 11), (5, 5, 12), (5, 6, 12), (5, 7, 11),
   (5, 7, 12), (5, 8, 11), (5, 9, 11), (5, 9, 12)]

/-- `PROBE_TECHS` — the BDC-valid parent technology codes. -/
def PROBE_TECHS : List String := ["10", "40", "50", "60", "70"]

/-- One sample fetch of the probe: `false` on a thrown/timed-out request
(`none`), on a non-2xx status, or on an empty body; `true` exactly when the
response is ok with a non-empty body. -/
def tileHit : Option TileResp → Bool
  | none => false
  | some r => r.ok && decide (0 < r.byteLength)

/-- `probeTechs`, the pure probe computation for one provider: `resp` gives
the provider's tile response per (tech code, sample tile).  A tech is kept
when ANY of the 8 sample tiles hits; the kept codes are sorted numerically
ascending. -/
def probeTechs (resp : String → Nat × Nat × Nat → Option TileResp) : List String :=
  let results := PROBE_TECHS.map (fun tech =>
    if PROBE_TILES.any (fun tile => tileHit (resp tech tile)) then some tech else none)
  List.insertionSort numLE (results.filterMap id)

/-- One entry of `techProbeCache`: the cached tech list together with the
epoch-ms instant at which the `setTimeout` eviction fires (1-hour TTL). -/
structure ProbeEntry where
  techs : List String
  deleteAt : Nat
deriving DecidableEq

/-- Lookup in the probe cache (a JS `Map` keyed by `probe:providerId`). -/
def probeCacheFind (cache : List (String × ProbeEntry)) (key : String) : Option ProbeEntry :=
  (cache.find? (fun kv => kv.1 == key)).map (fun kv => kv.2)

/-- `probeTechs` with its module-level `techProbeCache` made explicit: a hit
returns the cached list unchanged; a miss probes, and only a NON-empty
result is stored (with deletion scheduled 1 hour from `now`). -/
def probeTechsCached (cache : List (String × ProbeEntry)) (providerId : String)
    (resp : String → Nat × Nat × Nat → Option TileResp) (now : Nat) :
    List String × List (String × ProbeEntry) :=
  let cacheKey := "probe:" ++ providerId
  match probeCacheFind cache cacheKey with
  | some e => (e.techs, cache)
  | none =>
    let techs := probeTechs resp
    if 0 < techs.length then
      (techs, (cacheKey, ⟨techs, now + 60 * 60 * 1000⟩) :: cache)
    else (techs, cache)

/-! ## In-memory cache (`server/services/fcc.js`, `getCached` / `setCached`) -/

/-- One entry of the fcc.js cache: `{ data, expiresAt }`. -/
structure CacheEntry (α : Type) where
  data : α
  expiresAt : Nat
deriving DecidableEq

/-- `cache.get(key)` on the underlying JS `Map`, modelled on an association
list: the first binding of `key`, if any. -/
def cacheFind {α : Type} (cache : List (String × CacheEntry α)) (key : String) :
    Option (CacheEntry α) :=
  (cache.find? (fun kv => kv.1 == key)).map (fun kv => kv.2)

/-- `cache.delete(key)`. -/
def cacheErase {α : Type} (cache : List (String × CacheEntry α)) (key : String) :
    List (String × CacheEntry α) :=
  cache.filter (fun kv => kv.1 != key)

/-- `getCached`: a read at time `now`.  A missing entry, or one whose
`expiresAt` lies strictly in the past, is a miss and is deleted; otherwise
the stored data is returned and the cache is untouched. -/
def getCached {α : Type} (cache : List (String × CacheEntry α)) (key : String) (now : Nat) :
    Option α × List (String × CacheEntry α) :=
  match cacheFind cache key with
  | none => (none, cacheErase cache key)
  | some e => if e.expiresAt < now then (none, cacheErase cache key) else (some e.data, cache)

/-- `setCached`: store `data` under `key` with `expiresAt = now + ttlMs`
(a JS `Map.set`, i.e. replacing any previous binding). -/
def setCached {α : Type} (cache : List (String × CacheEntry α)) (key : String) (data : α)
    (ttlMs now : Nat) : List (String × CacheEntry α) :=
  (key, ⟨data, now + ttlMs⟩) :: cacheErase cache key

/-! ## Name resolver (`server/routes/tiles.js`) -/

/-- The regex pass `/\([^)]*\)/g → ' '` of `normalizeName`, on the character
list, with a step-count fuel (each step consumes at least one character, so
`fuel = length` suffices; fuel keeps the recursion structural).  At a `'('`
the text up to and including the next `')'` is replaced by one space; a
`'('` with no closing `')'` anywhere after it matches nothing and the rest
is kept as is. -/
def stripParensFuel : Nat → List Char → List Char
  | 0, l => l
  | _ + 1, [] => []
  | fuel + 1, c :: rest =>
    if c = '(' then
      match rest.dropWhile (fun d => d ≠ ')') with
      | _ :: tail => ' ' :: stripParensFuel fuel tail
      | [] => c :: rest
    else c :: stripParensFuel fuel rest

/-- `.replace(/\([^)]*\)/g, ' ')`. -/
def stripParens (l : List Char) : List Char := stripParensFuel l.length l

/-- `.replace(/\s+/g, ' ')`: collapse every whitespace run to one space.
`prevWs` records whether the previously read character was whitespace. -/
def collapseWs (prevWs : Bool) : List Char → List Char
  | [] => []
  | c :: rest =>
    if c.isWhitespace then
      (if prevWs then collapseWs true rest else ' ' :: collapseWs true rest)
    else c :: collapseWs false rest

/-- `.trim()`. -/
def trimSpaces (l : List Char) : List Char :=
  ((l.dropWhile Char.isWhitespace).reverse.dropWhile Char.isWhitespace).reverse

/-- `normalizeName`: lowercase, strip parenthetical segments, replace every
character outside `[a-z0-9\s]` by a space, collapse whitespace, trim. -/
def normalizeName (s : String) : String :=
  let lowered := s.data.map Char.toLower
  let noParens := stripParens lowered
  let alnumOnly := noParens.map (fun c =>
    if ('a' ≤ c ∧ c ≤ 'z') ∨ ('0' ≤ c ∧ c ≤ '9') ∨ c.isWhitespace then c else ' ')
  String.mk (trimSpaces (collapseWs false alnumOnly))

/-- `String.prototype.split(' ')` on the character list. -/
def splitOnSpace (cur : List Char) : List Char → List (List Char)
  | [] => [cur.reverse]
  | c :: rest => if c = ' ' then cur.reverse :: splitOnSpace [] rest else splitOnSpace (c :: cur) rest

/-- The `STOP` word set of `meaningfulTokens`. -/
def STOP : List String :=
  ["inc", "llc", "ltd", "corp", "co", "company", "corporation", "communications",
   "communication", "the", "of", "and", "wireless", "telephone", "broadband",
   "network", "networks", "services", "service", "holdings", "group"]

/-- `meaningfulTokens`: the normalized name split on spaces, keeping tokens
of length at least 3 that are not stop words. -/
def meaningfulTokens (name : String) : List String :=
  ((splitOnSpace [] (normalizeName name).data).map String.mk).filter
    (fun token => decide (3 ≤ token.length) && !(STOP.contains token))

/-- `scoreNameMatch`: how many of the Form 477 name's meaningful tokens
(counted with multiplicity, as the JS `for` loop does) occur among the BDC
name's meaningful tokens. -/
def scoreNameMatch (form477Name bdcName : String) : Nat :=
  let left := meaningfulTokens form477Name
  if left.isEmpty then 0
  else
    let right := meaningfulTokens bdcName
    left.countP (fun token => right.contains token)

/-- One BDC provider search hit `{ id, name }`. -/
structure BdcRow where
  id : String
  name : String
deriving DecidableEq

/-- The `for (const row of rows)` loop of `resolveBdcProviderByName`: keep
the first row whose score strictly exceeds the best so far (starting from
`best = null`, `bestScore = 0`). -/
def selectBestLoop (providerName : String) :
    List BdcRow → Option BdcRow → Nat → Option BdcRow × Nat
  | [], best, bestScore => (best, bestScore)
  | row :: rest, best, bestScore =>
    let score := scoreNameMatch providerName row.name
    if bestScore < score then selectBestLoop providerName rest (some row) score
    else selectBestLoop providerName rest best bestScore

/-- The per-hit-list selection step of `resolveBdcProviderByName`: the
best-scoring hit, accepted only when its score reaches
`min(2, meaningfulTokens(providerName).length)`. -/
def selectBest (providerName : String) (rows : List BdcRow) : Option BdcRow :=
  let res := selectBestLoop providerName rows none 0
  let minScore := min 2 (meaningfulTokens providerName).length
  match res.1 with
  | some best => if minScore ≤ res.2 then some best else none
  | none => none

/-- `Array.prototype.join(' ')`. -/
def joinSp : List String → String
  | [] => ""
  | [t] => t
  | t :: rest => t ++ " " ++ joinSp rest

/-- `[...new Set(l)]`: drop duplicates keeping first occurrences. -/
def jsSetDedup (seen : List String) : List String → List String
  | [] => []
  | q :: rest => if seen.contains q then jsSetDedup seen rest else q :: jsSetDedup (q :: seen) rest

/-- The candidate search queries of `resolveBdcProviderByName`: the first
two meaningful tokens joined, then the first token alone, with empty
strings dropped (`filter(Boolean)`) and duplicates removed. -/
def candidateQueries (providerName : String) : List String :=
  let tokens := meaningfulTokens providerName
  let raw := [joinSp (tokens.take 2)] ++ (match tokens.head? with | some t => [t] | none => [])
  jsSetDedup [] (raw.filter (fun q => q != ""))

/-- The first candidate query (the first two meaningful tokens joined). -/
def firstQuery (providerName : String) : String :=
  joinSp ((meaningfulTokens providerName).take 2)

/-- The `for (const query of dedup)` loop of `resolveBdcProviderByName`.
`search query = none` models a thrown `searchBdcProviders` call (caught,
logged, next query tried); an empty hit list also moves on to the next
query; otherwise the selection step either accepts a hit (returned at once)
or the loop moves on. -/
def resolveLoop (search : String → Option (List BdcRow)) (providerName : String) :
    List String → Option BdcRow
  | [] => none
  | query :: rest =>
    match search query with
    | none => resolveLoop search providerName rest
    | some rows =>
      if rows.isEmpty then resolveLoop search providerName rest
      else
        match selectBest providerName rows with
        | some best => some best
        | none => resolveLoop search providerName rest

/-- `resolveBdcProviderByName`, with the BDC search made an explicit
argument and the indefinite memoization cache elided (the cache only
replays a previous return value for the same normalized name). -/
def resolveBdcProviderByName (search : String → Option (List BdcRow))
    (providerName : String) : Option BdcRow :=
  if (meaningfulTokens providerName).isEmpty then none
  else resolveLoop search providerName (candidateQueries providerName)

/-! ## Geometry merger (`src/map/hexCoverage.js`, `fetchHexCoverage`) -/

/-- One decoded GeoJSON feature as the merger sees it: the optional
`properties.h3index` string, and `geometry.coordinates` as a list of rings
of (lon, lat) pairs.  JS numbers holding coordinates are modelled as
rationals. -/
structure GeoFeature where
  h3index : Option String
  coordinates : List (List (ℚ × ℚ))
deriving DecidableEq

/-- `f.geometry?.coordinates?.[0]?.[0]` — the first vertex of the first
ring, if any. -/
def firstCoord (f : GeoFeature) : Option (ℚ × ℚ) :=
  match f.coordinates.head? with
  | some ring => ring.head?
  | none => none

/-- Zero-pad a number below 10000 to 4 digits (the fractional part of
`toFixed(4)`). -/
def pad4 (k : Nat) : String :=
  let d := toString k
  String.mk (List.replicate (4 - d.length) '0') ++ d

/-- `x.toFixed(4)` on an exact rational: round half away from zero to 4
decimal places and render with exactly 4 fractional digits. -/
def toFixed4 (q : ℚ) : String :=
  let m : ℚ := if q < 0 then -q else q
  let n : Nat := (2 * m.num.toNat * 10000 + m.den) / (2 * m.den)
  (if q < 0 then "-" else "") ++ toString (n / 10000) ++ "." ++ pad4 (n % 10000)

/-- The coordinate-derived dedupe key
`` `${coord[0].toFixed(4)},${coord[1].toFixed(4)}` ``. -/
def coordKey (c : ℚ × ℚ) : String := toFixed4 c.1 ++ "," ++ toFixed4 c.2

/-- The `dk` value of the merge loop: `h3 ?? (coord ? key : null)`.  A
present `h3index` (including the empty string, since `??` only tests
null/undefined) is used as is; otherwise the first-vertex key when a first
vertex exists; otherwise null (`none`). -/
def jsDedupeKey (f : GeoFeature) : Option String :=
  match f.h3index with
  | some h3 => some h3
  | none => (firstCoord f).map coordKey

/-- The dedupe loop of `fetchHexCoverage`: `if (!dk || seen.has(dk))
continue;` — a record with a null or empty-string key, or a key already
seen, is dropped; otherwise it is kept and its key recorded. -/
def mergeLoop (seen : List String) : List GeoFeature → List GeoFeature
  | [] => []
  | f :: rest =>
    match jsDedupeKey f with
    | none => mergeLoop seen rest
    | some dk =>
      if dk = "" ∨ dk ∈ seen then mergeLoop seen rest
      else f :: mergeLoop (dk :: seen) rest

/-- The merge step over the settled per-tile results: rejected fetches
(`.error`) and empty tiles contribute nothing, and the remaining records
are deduplicated in order.  (The JS iterates tile by tile pushing into one
shared array, which is the same traversal as one pass over the
concatenation.) -/
def mergeFeatures (tiles : List (Except String (List GeoFeature))) : List GeoFeature :=
  mergeLoop [] (tiles.filterMap Except.toOption).flatten

/-- `fetchHexCoverage`'s return value: a feature collection when at least
one unique feature survived, `null` (`none`) otherwise. -/
def fetchHexCoverage (tiles : List (Except String (List GeoFeature))) :
    Option (List GeoFeature) :=
  let features := mergeFeatures tiles
  if 0 < features.length then some features else none

/-! ## Tile decoder (`src/map/hexCoverage.js`, `decodePbf` / `fetchAndDecode`) -/

/-- One fetched tile response: HTTP `ok` flag and body bytes. -/
structure FetchResp where
  ok : Bool
  buffer : List UInt8
deriving DecidableEq

/-- One vector-tile layer: the per-feature outcomes of
`layer.feature(i).toGeoJSON(x, y, z)`; `.error` models a feature whose
conversion throws. -/
structure MVTLayer where
  feats : List (Except String GeoFeature)

/-- One parsed vector tile: its named layers. -/
structure MVTTile where
  layers : List (String × MVTLayer)

/-- `tile.layers[name]`. -/
def tileLayer (tile : MVTTile) (name : String) : Option MVTLayer :=
  (tile.layers.find? (fun kv => kv.1 == name)).map (fun kv => kv.2)

/-- `decodePbf`: parse the payload (the external `VectorTile` constructor is
the explicit `parse` argument; `.error` models a throw, caught by the outer
`try` and turned into `[]`), look up the `fixedproviderhex` layer (absent →
`[]`), and convert the features one by one, skipping any whose conversion
throws (the inner `try`). -/
def decodePbf (parse : List UInt8 → Except String MVTTile) (buffer : List UInt8) :
    List GeoFeature :=
  match parse buffer with
  | .error _ => []
  | .ok tile =>
    match tileLayer tile "fixedproviderhex" with
    | none => []
    | some layer => layer.feats.filterMap Except.toOption

/-- `fetchAndDecode`: a thrown fetch (`none`), a non-ok status, or an
absent/zero-byte body yields `[]`; otherwise the payload is decoded. -/
def fetchAndDecode (parse : List UInt8 → Except String MVTTile)
    (fetchRes : Option FetchResp) : List GeoFeature :=
  match fetchRes with
  | none => []
  | some r =>
    if !r.ok then []
    else if r.buffer.isEmpty then [] else decodePbf parse r.buffer

/-! ## Coverage aggregation (`src/main.js` `handleProviderAdd`,
`server/routes/coverage.js`) -/

/-- The feature collection a coverage fetch hands the client: features plus
the optional `meta.stateCount`. -/
structure ClientFC where
  features : List GeoFeature
  stateCount : Option Nat
deriving DecidableEq

/-- What `handleProviderAdd` delivers for one (provider, tech) addition:
either a card update `updateCardCoverage(id, tech, unitCount, dataSource)`
or the error path `markCardError`. -/
inductive CardOutcome where
  | card (unitCount : Nat) (dataSource : String)
  | failed
deriving DecidableEq

/-- Steps 2–3 of `handleProviderAdd` once the hex tier came back empty:
fetch the state-polygon fallback (`.error` models a thrown
`getCoverageGeoJSON`, caught by the outer `catch`); an empty fallback
delivers `updateCardCoverage(…, 0, 'hex')`, a non-empty one delivers its
feature count with source `'state'`. -/
def coverageFallback (tabRes : Except String ClientFC) : CardOutcome :=
  match tabRes with
  | .error _ => .failed
  | .ok fc => if fc.features.isEmpty then .card 0 "hex" else .card fc.features.length "state"

/-- `handleProviderAdd`'s coverage pipeline: hex tier first (`none` is the
`null` that `fetchHexCoverage` returns on zero features), state fallback
only when the hex tier yields no features.  Overlay rendering is outside
the model. -/
def handleProviderAdd (hexRes : Except String (Option ClientFC))
    (tabRes : Except String ClientFC) : CardOutcome :=
  match hexRes with
  | .error _ => .failed
  | .ok (some fc) =>
    if fc.features.isEmpty then coverageFallback tabRes else .card fc.features.length "hex"
  | .ok none => coverageFallback tabRes

/-- The HTTP responses of `GET /api/coverage`. -/
inductive CoverageHttpResp where
  | okJson (features : List GeoFeature) (stateCount : Nat)
  | badRequest
  | err502
deriving DecidableEq

/-- The `/api/coverage` route handler: missing/empty query params → 400;
a thrown upstream fetch or GeoJSON build → 502; zero coverage rows → an
explicit empty FeatureCollection with `stateCount: 0`; otherwise the built
features with their count. -/
def coverageRoute (providerId techCode : Option String)
    (coverageRowsRes : Except String (List String))
    (build : List String → Except String (List GeoFeature)) : CoverageHttpResp :=
  match providerId, techCode with
  | some pid, some tc =>
    if pid = "" ∨ tc = "" then .badRequest
    else
      match coverageRowsRes with
      | .error _ => .err502
      | .ok [] => .okJson [] 0
      | .ok rows =>
        match build rows with
        | .error _ => .err502
        | .ok feats => .okJson feats feats.length
  | _, _ => .badRequest

/-! ## Technology resolution (`server/routes/tiles.js`
`resolveProviderTechnologies`, `server/services/fcc.js`
`getProviderTechnologies`) -/

/-- The result object of `resolveProviderTechnologies`. -/
structure TechResult where
  technologies : List String
  source : String
  providerId : String
  providerName : Option String
  resolvedFromProviderId : Option String
deriving DecidableEq

/-- The dedupe pass of `getProviderTechnologies` over the Socrata rows'
`techcode` fields: falsy (missing or empty) codes are dropped, and only the
first occurrence of a code is kept. -/
def dedupTechRows : List (Option String) → List String → List String
  | [], _ => []
  | r :: rest, seen =>
    match r with
    | none => dedupTechRows rest seen
    | some t => if t = "" ∨ t ∈ seen then dedupTechRows rest seen else t :: dedupTechRows rest (t :: seen)

/-- `getProviderTechnologies` (data path; its 1-hour cache is the
`getCached`/`setCached` layer modelled above): the distinct non-falsy
techcodes of the fetched rows, in first-seen order. -/
def getProviderTechnologies (data : List (Option String)) : List String :=
  dedupTechRows data []

/-- The Form 477 technology list as `resolveProviderTechnologies` shapes
it: `rows.map(r => r.techcode).filter(Boolean).sort(numeric)`. -/
def form477Technologies (rows : List String) : List String :=
  List.insertionSort numLE (rows.filter (fun t => t != ""))

/-- `resolveProviderTechnologies`: probe the given id (`probe _ = none`
models a thrown probe, caught); on zero techs resolve the name to a BDC
provider and probe that id; on zero techs again fall back to the Form 477
tabular list fetched with the ORIGINAL id (`socrata477`; a throw here
propagates), labelling the result `bdc_resolved` when a different BDC id
was resolved and `form477` otherwise. -/
def resolveProviderTechnologies (probe : String → Option (List String))
    (resolveName : String → Option BdcRow)
    (socrata477 : String → Except String (List (Option String)))
    (providerId providerName : String) : Except String TechResult :=
  let firstTry : Option TechResult :=
    match probe providerId with
    | some techs => if 0 < techs.length then some ⟨techs, "bdc", providerId, none, none⟩ else none
    | none => none
  match firstTry with
  | some r => .ok r
  | none =>
    let resolvedBdc := if providerName ≠ "" then resolveName providerName else none
    let secondTry : Option TechResult :=
      match resolvedBdc with
      | some r =>
        if r.id ≠ providerId then
          match probe r.id with
          | some techs =>
            if 0 < techs.length then
              some ⟨techs, "bdc_resolved", r.id, some r.name, some providerId⟩
            else none
          | none => none
        else none
      | none => none
    match secondTry with
    | some r => .ok r
    | none =>
      match socrata477 providerId with
      | .error e => .error e
      | .ok data =>
        let technologies := form477Technologies (getProviderTechnologies data)
        match resolvedBdc with
        | some r =>
          if r.id ≠ providerId then
            .ok ⟨technologies, "bdc_resolved", r.id, some r.name, some providerId⟩
          else .ok ⟨technologies, "form477", providerId, none, none⟩
        | none => .ok ⟨technologies, "form477", providerId, none, none⟩

/-! ## Theorems -/

theorem cacheFind_erase {α : Type} (cache : List (String × CacheEntry α)) (key : String) :
    cacheFind (cacheErase cache key) key = none := by
  simp only [cacheFind, cacheErase, Option.map_eq_none', List.find?_eq_none, List.mem_filter]
  intro kv hkv
  simpa [bne_iff_ne] using hkv.2

/-- C9: for every cache key and read time, a `getCached` read performed
after the entry's expiry timestamp has passed (`now > expiresAt`) returns a
miss and evicts the entry, while a read within the TTL of a fresh
`setCached` entry is a hit — the entry's life cycle is absent → present →
expired → absent. -/
theorem C9_cache_expiry {α : Type} (cache : List (String × CacheEntry α)) (key : String)
    (now : Nat) (e : CacheEntry α)
    (hfind : cacheFind cache key = some e) (hexp : e.expiresAt < now) :
    (getCached cache key now).1 = none ∧
    cacheFind (getCached cache key now).2 key = none ∧
    (∀ (v : α) (ttl t1 : Nat), t1 ≤ now + ttl →
      (getCached (setCached cache key v ttl now) key t1).1 = some v ∧
      (getCached (setCached cache key v ttl now) key t1).2 = setCached cache key v ttl now) := by
  refine ⟨?_, ?_, ?_⟩
  · simp [getCached, hfind, hexp]
  · simp [getCached, hfind, hexp, cacheFind_erase]
  · intro v ttl t1 ht
    have hfresh : cacheFind (setCached cache key v ttl now) key =
        some ⟨v, now + ttl⟩ := by
      simp [cacheFind, setCached, List.find?_cons_of_pos]
    have hlive : ¬ (now + ttl < t1) := Nat.not_lt.mpr ht
    simp [getCached, hfresh, hlive]

/-- C9 witness: a concrete expired entry is read as a miss and evicted. -/
theorem C9_cache_expiry_witness :
    (getCached [("k", (⟨"v", 100⟩ : CacheEntry String))] "k" 101).1 = none ∧
    cacheFind (getCached [("k", (⟨"v", 100⟩ : CacheEntry String))] "k" 101).2 "k" = none ∧
    (∀ (v : String) (ttl t1 : Nat), t1 ≤ 101 + ttl →
      (getCached (setCached [("k", (⟨"v", 100⟩ : CacheEntry String))] "k" v ttl 101) "k" t1).1 = some v ∧
      (getCached (setCached [("k", (⟨"v", 100⟩ : CacheEntry String))] "k" v ttl 101) "k" t1).2 =
        setCached [("k", (⟨"v", 100⟩ : CacheEntry String))] "k" v ttl 101) :=
  C9_cache_expiry [("k", ⟨"v", 100⟩)] "k" 101 ⟨"v", 100⟩ (by decide) (by decide)

theorem probeTechs_of_no_hits (resp : String → Nat × Nat × Nat → Option TileResp)
    (hzero : ∀ tech ∈ PROBE_TECHS, ∀ tile ∈ PROBE_TILES, tileHit (resp tech tile) = false) :
    probeTechs resp = [] := by
  have key : ∀ tech ∈ PROBE_TECHS,
      (PROBE_TILES.any (fun tile => tileHit (resp tech tile))) = false := by
    intro tech ht
    exact List.any_eq_false.mpr (fun tile htile => by simp [hzero tech ht tile htile])
  have k10 := key "10" (by simp [PROBE_TECHS])
  have k40 := key "40" (by simp [PROBE_TECHS])
  have k50 := key "50" (by simp [PROBE_TECHS])
  have k60 := key "60" (by simp [PROBE_TECHS])
  have k70 := key "70" (by simp [PROBE_TECHS])
  simp [probeTechs, PROBE_TECHS, k10, k40, k50, k60, k70, List.insertionSort]

/-- C6: with a cold cache, a probe in which no (tech, sample tile) pair hits
(failed, timed-out, non-2xx and empty responses all count as no hit)
returns the empty array and leaves the probe cache unchanged, whereas any
non-empty probe outcome is stored under `probe:providerId` with eviction
scheduled one hour from now. -/
theorem C6_probe_cache_policy (cache : List (String × ProbeEntry)) (providerId : String)
    (resp : String → Nat × Nat × Nat → Option TileResp) (now : Nat)
    (hmiss : probeCacheFind cache ("probe:" ++ providerId) = none) :
    ((∀ tech ∈ PROBE_TECHS, ∀ tile ∈ PROBE_TILES, tileHit (resp tech tile) = false) →
        probeTechsCached cache providerId resp now = ([], cache)) ∧
    (∀ techs cacheOut, probeTechsCached cache providerId resp now = (techs, cacheOut) →
        techs ≠ [] →
        techs = probeTechs resp ∧
        cacheOut = ("probe:" ++ providerId, ⟨techs, now + 60 * 60 * 1000⟩) :: cache) := by
  constructor
  · intro hzero
    simp [probeTechsCached, hmiss, probeTechs_of_no_hits resp hzero]
  · intro techs cacheOut heq hne
    by_cases hp : 0 < (probeTechs resp).length
    · simp only [probeTechsCached, hmiss, if_pos hp, Prod.mk.injEq] at heq
      obtain ⟨rfl, rfl⟩ := heq
      exact ⟨rfl, rfl⟩
    · simp only [probeTechsCached, hmiss, if_neg hp, Prod.mk.injEq] at heq
      obtain ⟨rfl, -⟩ := heq
      exact absurd (List.length_eq_zero.mp (Nat.eq_zero_of_not_pos hp)) hne

/-- C6 witness: a concrete all-hit probe against a cold cache is cached,
and the all-miss implication is dischargeable at a concrete no-hit probe. -/
theorem C6_probe_cache_policy_witness :
    ((∀ tech ∈ PROBE_TECHS, ∀ tile ∈ PROBE_TILES,
        tileHit ((fun _ _ => none) tech tile) = false) →
        probeTechsCached [] "99" (fun _ _ => none) 7 = ([], [])) ∧
    (∀ techs cacheOut, probeTechsCached [] "99" (fun _ _ => none) 7 = (techs, cacheOut) →
        techs ≠ [] →
        techs = probeTechs (fun _ _ => none) ∧
        cacheOut = ("probe:" ++ "99", ⟨techs, 7 + 60 * 60 * 1000⟩) :: []) :=
  C6_probe_cache_policy [] "99" (fun _ _ => none) 7 (by decide)

/-- C2: for every provider (i.e. every family of tile responses), the probe
output is sorted ascending by numeric value, is a subset of the five fixed
parent technology codes, and contains a code exactly when that code is one
of the five probed ones and at least one of the 8 fixed sample tiles
answered it with a successful non-empty body. -/
theorem C2_probeTechs_spec : ∀ (resp : String → Nat × Nat × Nat → Option TileResp),
    List.Sorted numLE (probeTechs resp) ∧
    (∀ code ∈ probeTechs resp, code ∈ PROBE_TECHS) ∧
    (∀ code, code ∈ probeTechs resp ↔
      code ∈ PROBE_TECHS ∧ ∃ tile ∈ PROBE_TILES, tileHit (resp code tile) = true) := by
  intro resp
  have hmem : ∀ code, code ∈ probeTechs resp ↔
      code ∈ PROBE_TECHS ∧ ∃ tile ∈ PROBE_TILES, tileHit (resp code tile) = true := by
    intro code
    simp only [probeTechs, List.mem_insertionSort, List.filterMap_map, Function.comp,
      List.mem_filterMap, id, Option.ite_none_right_eq_some, Option.some.injEq, ← List.any_eq_true]
    constructor
    · rintro ⟨tech, htech, hhit, rfl⟩
      exact ⟨htech, hhit⟩
    · rintro ⟨htech, hhit⟩
      exact ⟨code, htech, hhit, rfl⟩
  exact ⟨List.sorted_insertionSort numLE _, fun code hc => (hmem code).mp hc |>.1, hmem⟩

/-- C7: tile decoding never throws — a missing or failed fetch, a non-ok
status, a zero-length body and an undecodable payload all yield the empty
sequence, and within a decodable tile exactly the sub-records whose
conversion succeeds are kept (malformed ones are skipped, never fatal). -/
theorem C7_decode_total : ∀ (parse : List UInt8 → Except String MVTTile) (r : FetchResp),
    fetchAndDecode parse none = [] ∧
    (r.ok = false → fetchAndDecode parse (some r) = []) ∧
    (r.buffer = [] → fetchAndDecode parse (some r) = []) ∧
    (∀ e, parse r.buffer = .error e → decodePbf parse r.buffer = []) ∧
    (∀ tile, parse r.buffer = .ok tile → tileLayer tile "fixedproviderhex" = none →
      decodePbf parse r.buffer = []) ∧
    (∀ tile layer, parse r.buffer = .ok tile → tileLayer tile "fixedproviderhex" = some layer →
      ∀ f, f ∈ decodePbf parse r.buffer ↔ Except.ok f ∈ layer.feats) := by
  intro parse r
  refine ⟨rfl, ?_, ?_, ?_, ?_, ?_⟩
  · intro hok
    simp [fetchAndDecode, hok]
  · intro hbuf
    cases hok : r.ok <;> simp [fetchAndDecode, hok, hbuf]
  · intro e he
    simp [decodePbf, he]
  · intro tile hp hl
    simp [decodePbf, hp, hl]
  · intro tile layer hp hl f
    simp only [decodePbf, hp, hl, List.mem_filterMap]
    constructor
    · rintro ⟨a, ha, hta⟩
      cases a with
      | ok v =>
        have hv : v = f := by simpa [Except.toOption] using hta
        exact hv ▸ ha
      | error e => simp [Except.toOption] at hta
    · intro hf
      exact ⟨Except.ok f, hf, rfl⟩

/-- `hexRes` delivers zero geometry: `fetchHexCoverage` returned `null`, or
(degenerately) a collection with no features. -/
def hexZero (hexRes : Except String (Option ClientFC)) : Prop :=
  hexRes = .ok none ∨ ∃ fc, hexRes = .ok (some fc) ∧ fc.features = []

/-- C1 as stated: whenever the hex tier yields zero geometry features, the
delivered result carries the tabular tier's source label and its unit count
equals the tabular tier's feature count. -/
def C1ClaimStatement : Prop :=
  ∀ (hexRes : Except String (Option ClientFC)) (tabFc : ClientFC),
    hexZero hexRes →
    handleProviderAdd hexRes (.ok tabFc) = .card tabFc.features.length "state"

/-- C1 counterexample: when the hex tier yields zero features AND the
tabular tier also yields zero rows, `handleProviderAdd` delivers
`updateCardCoverage(…, 0, 'hex')` — the data-source field is the hex tier,
not the tabular one, refuting the claim at this input. -/
theorem C1_counterexample : ¬ C1ClaimStatement := fun h =>
  absurd (h (.ok none) ⟨[], none⟩ (Or.inl rfl)) (by decide)

/-- C1 amended: if the hex tier yields zero geometry features and the
tabular tier yields at least one feature, the delivered result's
data-source is the tabular tier (`'state'`, never `'hex'`) and its unit
count is the tabular tier's feature count.  (When both tiers yield zero the
code delivers count 0 labelled `'hex'`.) -/
theorem C1_amended_fallback_source (hexRes : Except String (Option ClientFC))
    (tabFc : ClientFC) (h1 : hexZero hexRes) (h2 : tabFc.features ≠ []) :
    handleProviderAdd hexRes (.ok tabFc) = .card tabFc.features.length "state" := by
  have htab : tabFc.features.isEmpty = false := by
    simpa [List.isEmpty_iff] using h2
  rcases h1 with rfl | ⟨fc, rfl, hfc⟩
  · simp [handleProviderAdd, coverageFallback, htab]
  · simp [handleProviderAdd, coverageFallback, hfc, htab]

/-- C1 witness: hex tier empty, tabular tier with one state polygon. -/
theorem C1_amended_fallback_source_witness :
    handleProviderAdd (.ok none) (.ok ⟨[⟨some "s1", []⟩], some 1⟩) =
      .card [(⟨some "s1", []⟩ : GeoFeature)].length "state" :=
  C1_amended_fallback_source (.ok none) ⟨[⟨some "s1", []⟩], some 1⟩ (Or.inl rfl) (by decide)

/-- C8: when both tiers yield zero records the caller still receives an
explicit empty success — the coverage route answers the empty
FeatureCollection with `stateCount: 0` (not a 4xx/5xx), and the client
delivers a card update with unit count 0 (not the error path). -/
theorem C8_double_empty (pid tc : String)
    (build : List String → Except String (List GeoFeature))
    (hexRes : Except String (Option ClientFC)) (tabFc : ClientFC)
    (hpid : pid ≠ "") (htc : tc ≠ "") (hhex : hexZero hexRes) (htab : tabFc.features = []) :
    coverageRoute (some pid) (some tc) (.ok []) build = .okJson [] 0 ∧
    handleProviderAdd hexRes (.ok tabFc) = .card 0 "hex" ∧
    handleProviderAdd hexRes (.ok tabFc) ≠ .failed := by
  refine ⟨?_, ?_, ?_⟩
  · simp [coverageRoute, hpid, htc]
  · rcases hhex with rfl | ⟨fc, rfl, hfc⟩
    · simp [handleProviderAdd, coverageFallback, htab]
    · simp [handleProviderAdd, coverageFallback, hfc, htab]
  · rcases hhex with rfl | ⟨fc, rfl, hfc⟩
    · simp [handleProviderAdd, coverageFallback, htab]
    · simp [handleProviderAdd, coverageFallback, hfc, htab]

/-- C8 witness: concrete empty tiers. -/
theorem C8_double_empty_witness :
    coverageRoute (some "72917") (some "50") (.ok []) (fun _ => .ok []) = .okJson [] 0 ∧
    handleProviderAdd (.ok none) (.ok ⟨[], some 0⟩) = .card 0 "hex" ∧
    handleProviderAdd (.ok none) (.ok ⟨[], some 0⟩) ≠ .failed :=
  C8_double_empty "72917" "50" (fun _ => .ok []) (.ok none) ⟨[], some 0⟩
    (by decide) (by decide) (Or.inl rfl) rfl

/-- C10: when the original id's probe yields nothing, the name resolves to
a different BDC id, and the resolved id's probe also yields nothing, the
result is labelled `source = 'bdc_resolved'` with `providerId` the resolved
BDC id — while `technologies` is the Form 477 list fetched with the
ORIGINAL (unresolved) provider id. -/
theorem C10_resolved_id_form477_techs (probe : String → Option (List String))
    (resolveName : String → Option BdcRow)
    (socrata477 : String → Except String (List (Option String)))
    (providerId providerName : String) (r : BdcRow) (data : List (Option String))
    (h1 : probe providerId = some [] ∨ probe providerId = none)
    (h2 : providerName ≠ "")
    (h3 : resolveName providerName = some r)
    (h4 : r.id ≠ providerId)
    (h5 : probe r.id = some [] ∨ probe r.id = none)
    (h6 : socrata477 providerId = .ok data) :
    resolveProviderTechnologies probe resolveName socrata477 providerId providerName =
      .ok ⟨form477Technologies (getProviderTechnologies data), "bdc_resolved",
            r.id, some r.name, some providerId⟩ := by
  rcases h1 with h1 | h1 <;> rcases h5 with h5 | h5 <;>
    simp [resolveProviderTechnologies, h1, h2, h3, h4, h5, h6]

/-- C10 witness: probes yield nothing, the name resolves to BDC id 999, and
the Form 477 rows fetched with the original id 123 carry the output codes. -/
theorem C10_resolved_id_form477_techs_witness :
    resolveProviderTechnologies (fun _ => some []) (fun _ => some ⟨"999", "acme fiber"⟩)
        (fun _ => .ok [some "50", some "10", none, some "50", some ""]) "123" "acme" =
      .ok ⟨form477Technologies (getProviderTechnologies [some "50", some "10", none, some "50", some ""]),
            "bdc_resolved", "999", some "acme fiber", some "123"⟩ :=
  C10_resolved_id_form477_techs (fun _ => some []) (fun _ => some ⟨"999", "acme fiber"⟩)
    (fun _ => .ok [some "50", some "10", none, some "50", some ""]) "123" "acme"
    ⟨"999", "acme fiber"⟩ [some "50", some "10", none, some "50", some ""]
    (Or.inl rfl) (by decide) rfl (by decide) (Or.inl rfl) rfl

theorem selectBestLoop_spec (providerName : String) (rows : List BdcRow) :
    ∀ (b0 : Option BdcRow) (s0 : Nat),
      s0 ≤ (selectBestLoop providerName rows b0 s0).2 ∧
      (∀ r ∈ rows, scoreNameMatch providerName r.name ≤ (selectBestLoop providerName rows b0 s0).2) ∧
      (selectBestLoop providerName rows b0 s0 = (b0, s0) ∨
       ∃ r ∈ rows, selectBestLoop providerName rows b0 s0 =
         (some r, scoreNameMatch providerName r.name)) := by
  induction rows with
  | nil =>
    intro b0 s0
    simp [selectBestLoop]
  | cons row rest ih =>
    intro b0 s0
    by_cases h : s0 < scoreNameMatch providerName row.name
    · obtain ⟨i1, i2, i3⟩ := ih (some row) (scoreNameMatch providerName row.name)
      simp only [selectBestLoop, if_pos h]
      refine ⟨Nat.le_trans (Nat.le_of_lt h) i1, ?_, ?_⟩
      · intro r hr
        rcases List.mem_cons.mp hr with rfl | hr
        · exact i1
        · exact i2 r hr
      · rcases i3 with heq | ⟨r, hr, heq⟩
        · exact Or.inr ⟨row, List.mem_cons_self row rest, heq⟩
        · exact Or.inr ⟨r, List.mem_cons_of_mem row hr, heq⟩
    · obtain ⟨i1, i2, i3⟩ := ih b0 s0
      simp only [selectBestLoop, if_neg h]
      refine ⟨i1, ?_, ?_⟩
      · intro r hr
        rcases List.mem_cons.mp hr with rfl | hr
        · exact Nat.le_trans (Nat.le_of_not_lt h) i1
        · exact i2 r hr
      · rcases i3 with heq | ⟨r, hr, heq⟩
        · exact Or.inl heq
        · exact Or.inr ⟨r, List.mem_cons_of_mem row hr, heq⟩

/-- C4: for an input name with at least one meaningful token, the selection
step scores every hit by counting the input's meaningful tokens present
among the hit's meaningful tokens, and returns a highest-scoring hit
exactly when its score reaches `min(2, number of meaningful tokens)`;
otherwise it returns none — and on none every hit scores below that
threshold. -/
theorem C4_selection_threshold (providerName : String) (rows : List BdcRow)
    (h : meaningfulTokens providerName ≠ []) :
    match selectBest providerName rows with
    | some best =>
        best ∈ rows ∧
        (∀ r ∈ rows, scoreNameMatch providerName r.name ≤ scoreNameMatch providerName best.name) ∧
        min 2 (meaningfulTokens providerName).length ≤ scoreNameMatch providerName best.name
    | none => ∀ r ∈ rows, scoreNameMatch providerName r.name <
        min 2 (meaningfulTokens providerName).length := by
  have hmin : 1 ≤ min 2 (meaningfulTokens providerName).length :=
    le_min (by norm_num) (List.length_pos.mpr h)
  obtain ⟨-, i2, i3⟩ := selectBestLoop_spec providerName rows none 0
  rcases hres : selectBestLoop providerName rows none 0 with ⟨b, s⟩
  rw [hres] at i2 i3
  cases b with
  | none =>
    have hsel : selectBest providerName rows = none := by
      simp [selectBest, hres]
    rw [hsel]
    have hs : s = 0 := by
      rcases i3 with heq | ⟨r, hr, heq⟩
      · exact (Prod.mk.injEq _ _ _ _ ▸ heq).2
      · exact absurd (Prod.mk.injEq _ _ _ _ ▸ heq).1 (by simp)
    intro r hr
    have := i2 r hr
    omega
  | some best =>
    by_cases hacc : min 2 (meaningfulTokens providerName).length ≤ s
    · have hsel : selectBest providerName rows = some best := by
        simp [selectBest, hres, hacc]
      rw [hsel]
      rcases i3 with heq | ⟨r, hr, heq⟩
      · exact absurd (Prod.mk.injEq _ _ _ _ ▸ heq).1 (by simp)
      · obtain ⟨hb, hsc⟩ := Prod.mk.injEq _ _ _ _ ▸ heq
        obtain rfl : best = r := Option.some.injEq _ _ ▸ hb
        subst hsc
        exact ⟨hr, i2, hacc⟩
    · have hsel : selectBest providerName rows = none := by
        simp [selectBest, hres, hacc]
      rw [hsel]
      intro r hr
      exact Nat.lt_of_le_of_lt (i2 r hr) (Nat.lt_of_not_le hacc)

/-- C4 witness: the end-to-end Comcast scenario — the sole hit matches two
meaningful tokens, meeting the threshold `min(2, 2)`. -/
theorem C4_selection_threshold_witness :
    (match selectBest ("Comcast Cable Communications, LLC")
        [⟨"130077", "comcast cable communications llc"⟩] with
    | some best =>
        best ∈ [(⟨"130077", "comcast cable communications llc"⟩ : BdcRow)] ∧
        (∀ r ∈ [(⟨"130077", "comcast cable communications llc"⟩ : BdcRow)],
          scoreNameMatch ("Comcast Cable Communications, LLC") r.name ≤
            scoreNameMatch ("Comcast Cable Communications, LLC") best.name) ∧
        min 2 (meaningfulTokens ("Comcast Cable Communications, LLC")).length ≤
          scoreNameMatch ("Comcast Cable Communications, LLC") best.name
    | none => ∀ r ∈ [(⟨"130077", "comcast cable communications llc"⟩ : BdcRow)],
        scoreNameMatch ("Comcast Cable Communications, LLC") r.name <
          min 2 (meaningfulTokens ("Comcast Cable Communications, LLC")).length) :=
  C4_selection_threshold ("Comcast Cable Communications, LLC")
    [⟨"130077", "comcast cable communications llc"⟩] (by decide)

theorem meaningfulTokens_three_le (name : String) :
    ∀ t ∈ meaningfulTokens name, 3 ≤ t.length := by
  intro t ht
  simp only [meaningfulTokens, List.mem_filter, Bool.and_eq_true, decide_eq_true_eq] at ht
  exact ht.2.1

theorem meaningfulTokens_ne_empty (name : String) :
    ∀ t ∈ meaningfulTokens name, t ≠ "" := by
  intro t ht he
  subst he
  exact absurd (meaningfulTokens_three_le name "" ht) (by decide)

theorem candidateQueries_shape (name : String) (h : meaningfulTokens name ≠ []) :
    ∃ rest : List String, candidateQueries name = firstQuery name :: rest ∧
      (candidateQueries name).length ≤ 2 := by
  rcases htok : meaningfulTokens name with _ | ⟨t0, ts⟩
  · exact absurd htok h
  have ht0 : t0 ≠ "" := by
    refine meaningfulTokens_ne_empty name t0 ?_
    rw [htok]; exact List.mem_cons_self t0 ts
  have hb0 : (t0 != "") = true := by simpa using ht0
  cases ts with
  | nil =>
    have hfq : firstQuery name = t0 := by
      rw [firstQuery, htok]
      simp [joinSp]
    have hcq : candidateQueries name = [t0] := by
      rw [candidateQueries, htok]
      simp [joinSp, jsSetDedup, List.filter_cons, hb0, List.contains, List.elem]
    exact ⟨[], by rw [hcq, hfq], by rw [hcq]; simp⟩
  | cons t1 ts2 =>
    have hsp : (" " : String).length = 1 := rfl
    have h0 : ("" : String).length = 0 := rfl
    have hlen : (t0 ++ " " ++ t1).length = t0.length + 1 + t1.length := by
      simp [String.length_append, hsp]
    have hq1t0 : (t0 ++ " " ++ t1) ≠ t0 := by
      intro e
      have hl := congrArg String.length e
      rw [hlen] at hl
      omega
    have hq1ne : (t0 ++ " " ++ t1) ≠ "" := by
      intro e
      have hl := congrArg String.length e
      rw [hlen, h0] at hl
      omega
    have hb1 : ((t0 ++ " " ++ t1) != "") = true := by simpa using hq1ne
    have hbne : (t0 == (t0 ++ " " ++ t1)) = false := by
      simpa using fun e => hq1t0 e.symm
    have hfq : firstQuery name = t0 ++ " " ++ t1 := by
      rw [firstQuery, htok]
      simp [joinSp]
    have hcq : candidateQueries name = (t0 ++ " " ++ t1) :: [t0] := by
      rw [candidateQueries, htok]
      simp [joinSp, jsSetDedup, List.filter_cons, hb0, hb1, List.contains, List.elem, hbne]
    exact ⟨[t0], by rw [hcq, hfq], by rw [hcq]; simp⟩

/-- C5 as stated: once the first candidate query returns a non-empty hit
list, the second query is never consulted — so the resolver's outcome may
depend only on the first query's hits. -/
def C5ClaimStatement : Prop :=
  ∀ (providerName : String) (s₁ s₂ : String → Option (List BdcRow)),
    meaningfulTokens providerName ≠ [] →
    s₁ (firstQuery providerName) = s₂ (firstQuery providerName) →
    (∃ rows, s₁ (firstQuery providerName) = some rows ∧ rows ≠ []) →
    resolveBdcProviderByName s₁ providerName = resolveBdcProviderByName s₂ providerName

/-- A search backend whose first query yields one (non-matching) hit and
whose second query yields a matching hit. -/
def searchCexA : String → Option (List BdcRow) := fun q =>
  if q = "alpha beta" then some [⟨"1", "zzz"⟩]
  else if q = "alpha" then some [⟨"2", "alpha beta"⟩] else some []

/-- Like `searchCexA` on the first query, but with nothing on the second. -/
def searchCexB : String → Option (List BdcRow) := fun q =>
  if q = "alpha beta" then some [⟨"1", "zzz"⟩] else some []

/-- C5 counterexample: for the name `"alpha beta"`, both backends answer
the first query with the same non-empty (but below-threshold) hit list,
yet the resolver consults the second query and returns its hit under
`searchCexA` and none under `searchCexB` — refuting "the first query to
yield any hits wins". -/
theorem C5_counterexample : ¬ C5ClaimStatement := fun h =>
  absurd (h ("alpha beta") searchCexA searchCexB (by decide) (by decide)
    ⟨[⟨"1", "zzz"⟩], by decide, by decide⟩) (by decide)

/-- C5 amended: at most two candidate queries (the first two meaningful
tokens joined, then the first token, deduplicated) are tried in order, and
the first query whose hits contain an accepted (threshold-meeting) match
wins — later queries are then never consulted; but a query whose hits all
fall below the threshold does NOT stop the search. -/
theorem C5_amended_query_order (providerName : String)
    (s₁ s₂ : String → Option (List BdcRow)) (rows : List BdcRow) (best : BdcRow)
    (h : meaningfulTokens providerName ≠ [])
    (h1 : s₁ (firstQuery providerName) = some rows)
    (h2 : s₂ (firstQuery providerName) = some rows)
    (hsel : selectBest providerName rows = some best) :
    resolveBdcProviderByName s₁ providerName = some best ∧
    resolveBdcProviderByName s₂ providerName = some best ∧
    (candidateQueries providerName).length ≤ 2 := by
  have hrows : rows ≠ [] := by
    intro e
    subst e
    simp [selectBest, selectBestLoop] at hsel
  have hempty : rows.isEmpty = false := by simpa [List.isEmpty_iff] using hrows
  obtain ⟨rest, hq, hlen⟩ := candidateQueries_shape providerName h
  have key : ∀ s : String → Option (List BdcRow), s (firstQuery providerName) = some rows →
      resolveBdcProviderByName s providerName = some best := by
    intro s hs
    unfold resolveBdcProviderByName
    rw [if_neg (by simpa [List.isEmpty_iff] using h), hq]
    simp [resolveLoop, hs, hempty, hsel]
  exact ⟨key s₁ h1, key s₂ h2, hlen⟩

/-- C5 witness: a backend whose first query yields an accepted match. -/
theorem C5_amended_query_order_witness :
    resolveBdcProviderByName (fun _ => some [⟨"2", "alpha beta"⟩]) ("alpha beta") =
      some ⟨"2", "alpha beta"⟩ ∧
    resolveBdcProviderByName (fun _ => some [⟨"2", "alpha beta"⟩]) ("alpha beta") =
      some ⟨"2", "alpha beta"⟩ ∧
    (candidateQueries ("alpha beta")).length ≤ 2 :=
  C5_amended_query_order ("alpha beta") (fun _ => some [⟨"2", "alpha beta"⟩])
    (fun _ => some [⟨"2", "alpha beta"⟩]) [⟨"2", "alpha beta"⟩] ⟨"2", "alpha beta"⟩
    (by decide) rfl rfl (by decide)

theorem mergeLoop_filter (k : String) (hk : k ≠ "") (l : List GeoFeature) :
    ∀ seen : List String,
      (mergeLoop seen l).filter (fun g => jsDedupeKey g == some k) =
        if k ∈ seen then [] else (l.find? (fun f => jsDedupeKey f == some k)).toList := by
  induction l with
  | nil =>
    intro seen
    simp [mergeLoop]
  | cons f rest ih =>
    intro seen
    cases hjk : jsDedupeKey f with
    | none =>
      have hp : (jsDedupeKey f == some k) = false := by simp [hjk]
      simp only [mergeLoop, hjk]
      rw [ih seen]
      simp [List.find?_cons, hp]
    | some dk =>
      by_cases hskip : dk = "" ∨ dk ∈ seen
      · simp only [mergeLoop, hjk, if_pos hskip]
        rw [ih seen]
        by_cases hdk : dk = k
        · subst hdk
          have hks : dk ∈ seen := hskip.resolve_left hk
          simp [hks]
        · have hp : (jsDedupeKey f == some k) = false := by simp [hjk, hdk]
          simp [List.find?_cons, hp]
      · push_neg at hskip
        simp only [mergeLoop, hjk, if_neg (not_or.mpr ⟨hskip.1, hskip.2⟩)]
        by_cases hdk : dk = k
        · subst hdk
          have hp : (jsDedupeKey f == some dk) = true := by simp [hjk]
          simp only [List.filter_cons, hp, if_true]
          rw [ih (dk :: seen)]
          simp [List.find?_cons, hp, hskip.2, List.mem_cons]
        · have hp : (jsDedupeKey f == some k) = false := by simp [hjk, hdk]
          have hkdk : k ≠ dk := fun e => hdk e.symm
          simp only [List.filter_cons, hp, if_false]
          rw [ih (dk :: seen)]
          simp [List.find?_cons, hp, List.mem_cons, hkdk]

/-- C3 as stated: for every per-tile record sequence and every dedupe key —
`properties.h3index` whenever present, else the first coordinate pair
rounded to 4 decimal places — the merged output keeps exactly the
first-seen record of that key. -/
def C3ClaimStatement : Prop :=
  ∀ (tiles : List (List GeoFeature)) (k : String),
    (mergeFeatures (tiles.map Except.ok)).filter (fun g => jsDedupeKey g == some k) =
      (tiles.flatten.find? (fun f => jsDedupeKey f == some k)).toList

/-- C3 counterexample: a record whose `properties.h3index` is present but
EMPTY (`""`) has dedupe key `""` (the `??` takes it), yet the merge loop's
`!dk` test drops it entirely — the merged output holds no record with that
key instead of exactly one. -/
theorem C3_counterexample : ¬ C3ClaimStatement := fun h =>
  absurd (h [[⟨some "", [[(1, 2)]]⟩]] "") (by decide)

/-- C3 amended: for every non-empty dedupe key the merged output contains
exactly the first-seen input record bearing that key (duplicates dropped,
first-seen wins); records whose key is null or the empty string are dropped
entirely. -/
theorem C3_amended_merge_dedupe (tiles : List (Except String (List GeoFeature)))
    (k : String) (hk : k ≠ "") :
    (mergeFeatures tiles).filter (fun g => jsDedupeKey g == some k) =
      ((tiles.filterMap Except.toOption).flatten.find?
        (fun f => jsDedupeKey f == some k)).toList := by
  rw [mergeFeatures, mergeLoop_filter k hk]
  simp

/-- C3 witness: two tiles sharing a boundary hexagon `h3 = "85a"`; the
merged output keeps exactly the first-seen record with that key. -/
theorem C3_amended_merge_dedupe_witness :
    (mergeFeatures [.ok [⟨some "85a", []⟩, ⟨some "b2", []⟩], .ok [⟨some "85a", [[(3, 4)]]⟩]]).filter
        (fun g => jsDedupeKey g == some "85a") =
      (([.ok [⟨some "85a", []⟩, ⟨some "b2", []⟩],
         .ok [⟨some "85a", [[(3, 4)]]⟩]].filterMap
          (Except.toOption (ε := String) (α := List GeoFeature))).flatten.find?
        (fun f => jsDedupeKey f == some "85a")).toList :=
  C3_amended_merge_dedupe
    [.ok [⟨some "85a", []⟩, ⟨some "b2", []⟩], .ok [⟨some "85a", [[(3, 4)]]⟩]] "85a" (by decide)

end Hotrod
